import Mathlib

/-!
Shallow embedding of the channel demultiplexer of `midi_splitter.py`
(`split_midi`, lines 15–137), together with proofs checking the
specification's claims about it.

The embedding follows the source closely:

* a message either carries a channel (a mido message with a `.channel`
  attribute) or is a global/meta message;
* `stepSplit` is the body of the `for message in track` loop (lines
  50–112), acting on an explicit state record holding `new_tracks`,
  `delta_ticks`, `total_ticks`, `instruments`, `active_channels` and
  `tempo`;
* `runSplit` is the fold of `stepSplit` over the merged event list,
  starting from the initial state of lines 24–44;
* `second2tick` is mido's seconds→ticks conversion
  `second * ticks_per_beat * 10^6 / tempo`, modelled exactly over `ℚ`;
  the executable window tests `tickAtLeast` / `tickAtMost` are the same
  comparisons with the positive denominator cleared (`tickAtLeast_iff`,
  `tickAtMost_iff`);
* the output assembler's channel selection (lines 117–121) is
  `outputFiles`: one file per channel with `active_channels` set.
-/

/-- Kind of a channel-scoped message (a mido message with a `.channel`
attribute).  Only `note_on` and `program_change` influence the splitter's
state; the rest are carried through unchanged. -/
inductive ChanKind where
  | noteOn
  | noteOff
  | programChange (program : Nat)
  | controlChange
  | pitchBend
  | otherVoice
deriving DecidableEq

/-- Kind of a global message (no `.channel` attribute): meta messages,
of which `set_tempo` carries a tempo payload and the six kinds of
`IGNORE_MESSAGES_TYPE` can be suppressed, plus other channel-less data. -/
inductive MetaKind where
  | setTempo (tempo : Nat)
  | endOfTrack
  | text
  | lyrics
  | copyright
  | trackName
  | marker
  | cueMarker
  | otherGlobal
deriving DecidableEq

/-- A decoded MIDI message: either channel-scoped (channel 0–15, a kind,
and a delta time in ticks since the previous message of the merged
stream) or global. -/
inductive MidiMsg where
  | channelMsg (channel : Fin 16) (kind : ChanKind) (time : Nat)
  | metaMsg (kind : MetaKind) (time : Nat)
deriving DecidableEq

/-- `IGNORE_MESSAGES_TYPE = ['text', 'lyrics', 'copyright', 'track_name',
'marker', 'cue_marker']` (line 12). -/
def inIgnoreList : MetaKind → Bool
  | .text => true
  | .lyrics => true
  | .copyright => true
  | .trackName => true
  | .marker => true
  | .cueMarker => true
  | _ => false

/-- The `time` attribute of a message. -/
def msgTime : MidiMsg → Nat
  | .channelMsg _ _ t => t
  | .metaMsg _ t => t

/-- Does the message carry a channel attribute? -/
def isChannelMsg : MidiMsg → Bool
  | .channelMsg _ _ _ => true
  | .metaMsg _ _ => false

/-- Is the message a global (channel-less) message? -/
def isMetaMsg : MidiMsg → Bool
  | .channelMsg _ _ _ => false
  | .metaMsg _ _ => true

/-- Is the message a channel message addressed to channel `k`? -/
def isOnChannel (k : Fin 16) : MidiMsg → Bool
  | .channelMsg c _ _ => c == k
  | .metaMsg _ _ => false

/-- The caller-facing parameters of `split_midi` that the demultiplexing
loop reads: `trim_silence`, `ignore_meta`, `cutoff`, `offset` (seconds,
`none` when absent), and the file's `ticks_per_beat`. -/
structure SplitConfig where
  trim_silence : Bool
  ignore_meta : Bool
  cutoff : Option Nat
  offset : Option Nat
  ticks_per_beat : Nat
deriving DecidableEq

/-- Python truthiness of an optional integer: `None` and `0` are falsy,
as in `if cutoff:` / `if offset:` (lines 101, 106). -/
def optTruthy : Option Nat → Bool
  | none => false
  | some v => v != 0

/-- mido's `second2tick(second, ticks_per_beat, tempo)`:
`second / (tempo * 1e-6 / ticks_per_beat) = second * ticks_per_beat * 10^6
/ tempo`, modelled exactly as a rational. -/
def second2tick (sec ticks_per_beat tempo : Nat) : ℚ :=
  (sec * ticks_per_beat * 1000000 : Nat) / (tempo : ℚ)

/-- The comparison `second2tick sec tpb tempo ≤ t` with the positive
denominator `tempo` cleared, so that it is executable over `ℕ`
(see `tickAtLeast_iff`). -/
def tickAtLeast (sec tpb tempo t : Nat) : Bool :=
  sec * tpb * 1000000 ≤ t * tempo

/-- The comparison `t ≤ second2tick sec tpb tempo` with the positive
denominator `tempo` cleared (see `tickAtMost_iff`). -/
def tickAtMost (sec tpb tempo t : Nat) : Bool :=
  t * tempo ≤ sec * tpb * 1000000

/-- The mutable state of one `split_midi` run (lines 24–44):
per-channel output tracks, tick-delta carries, cumulative emitted ticks,
instruments, activity flags, and the current tempo. -/
structure SplitState where
  new_tracks : Fin 16 → List MidiMsg
  delta_ticks : Fin 16 → Nat
  total_ticks : Fin 16 → Nat
  instruments : Fin 16 → Nat
  active_channels : Fin 16 → Bool
  tempo : Nat

/-- The state at the start of a file (lines 24–44): empty tracks, zero
carries and totals, instrument 1 everywhere, no channel active, tempo
500000 µs per beat. -/
def initState : SplitState where
  new_tracks := fun _ => []
  delta_ticks := fun _ => 0
  total_ticks := fun _ => 0
  instruments := fun _ => 1
  active_channels := fun _ => false
  tempo := 500000

/-- Lines 75–83: the candidate delta time of a channel event — the
channel's carried ticks plus the event's own delta, clamped at 10000 when
`trim_silence` is set. -/
def newTimeOf (cfg : SplitConfig) (s : SplitState) (c : Fin 16) (time : Nat) : Nat :=
  if cfg.trim_silence && decide (s.delta_ticks c + time > 10000) then 10000
  else s.delta_ticks c + time

/-- Line 86: the time actually written on the event — `new_time` when the
channel is already active **or `trim_silence` is off**, else `0`. -/
def emittedTimeOf (cfg : SplitConfig) (s : SplitState) (c : Fin 16) (time : Nat) : Nat :=
  if s.active_channels c || !cfg.trim_silence then newTimeOf cfg s c time else 0

/-- Lines 101–104: the cutoff filter drops the event when `cutoff` is
truthy and the channel's cumulative ticks `total` (already updated for
this event) have reached `second2tick cutoff ticks_per_beat tempo`. -/
def cutoffDrops (cfg : SplitConfig) (tempo total : Nat) : Bool :=
  optTruthy cfg.cutoff && tickAtLeast (cfg.cutoff.getD 0) cfg.ticks_per_beat tempo total

/-- Lines 106–109: the offset filter drops the event when `offset` is
truthy and the channel's cumulative ticks are still at most
`second2tick offset ticks_per_beat tempo`. -/
def offsetDrops (cfg : SplitConfig) (tempo total : Nat) : Bool :=
  optTruthy cfg.offset && tickAtMost (cfg.offset.getD 0) cfg.ticks_per_beat tempo total

/-- One iteration of the message loop (lines 50–112).

* Suppressed meta messages (line 53) are skipped entirely.
* Other global messages are appended unchanged to every track; a
  `set_tempo` updates the tempo (lines 63–70).
* A channel message for channel `c` first folds the carried delta into
  `new_time` (line 75), recomputes every channel's carry (lines 78–79),
  clamps at 10000 when `trim_silence` (lines 82–83), zeroes the emitted
  time when the channel is inactive and `trim_silence` is set (line 86),
  records activation and instrument (lines 89–96), accumulates
  `total_ticks` (line 99), and then applies cutoff and offset window
  filtering (lines 101–109) before appending (line 112). -/
def stepSplit (cfg : SplitConfig) (s : SplitState) (m : MidiMsg) : SplitState :=
  match m with
  | .metaMsg kind time =>
    if cfg.ignore_meta && inIgnoreList kind then s
    else
      { s with
        new_tracks := fun k => s.new_tracks k ++ [MidiMsg.metaMsg kind time]
        tempo := match kind with
          | .setTempo t => t
          | _ => s.tempo }
  | .channelMsg c kind time =>
    let new_time := newTimeOf cfg s c time
    let delta' : Fin 16 → Nat := fun k => if k = c then 0 else s.delta_ticks k + time
    let emitted := emittedTimeOf cfg s c time
    let active' : Fin 16 → Bool :=
      match kind with
      | ChanKind.noteOn => fun k => if k = c then true else s.active_channels k
      | _ => s.active_channels
    let instruments' : Fin 16 → Nat :=
      match kind with
      | ChanKind.programChange p => fun k => if k = c then p else s.instruments k
      | _ => s.instruments
    let total' : Fin 16 → Nat :=
      fun k => if k = c then s.total_ticks k + new_time else s.total_ticks k
    let droppedByCutoff := cutoffDrops cfg s.tempo (s.total_ticks c + new_time)
    let droppedByOffset := !droppedByCutoff && offsetDrops cfg s.tempo (s.total_ticks c + new_time)
    let tracks' : Fin 16 → List MidiMsg :=
      if droppedByCutoff || droppedByOffset then s.new_tracks
      else fun k =>
        if k = c then s.new_tracks k ++ [MidiMsg.channelMsg c kind emitted] else s.new_tracks k
    { new_tracks := tracks'
      delta_ticks := delta'
      total_ticks := total'
      instruments := instruments'
      active_channels := active'
      tempo := s.tempo }

/-- The whole demultiplexing pass: fold `stepSplit` over the merged
message sequence (the concatenation of the file's tracks, in order),
starting from `initState`. -/
def runSplit (cfg : SplitConfig) (events : List MidiMsg) : SplitState :=
  events.foldl (stepSplit cfg) initState

/-- The channels for which the output assembler writes a file: exactly
those with `active_channels` set (lines 117–121). -/
def outputChannels (s : SplitState) : List (Fin 16) :=
  (List.finRange 16).filter (fun c => s.active_channels c)

/-- The assembler's outputs: one (channel, track) file per active
channel (lines 117–137). -/
def outputFiles (s : SplitState) : List (Fin 16 × List MidiMsg) :=
  (outputChannels s).map (fun c => (c, s.new_tracks c))

/-- Sum of the `time` fields of a message list; on an input prefix this
is the absolute tick position of its last message, on an output track it
is the track's accumulated delta time. -/
def sumTimes (l : List MidiMsg) : Nat := (l.map msgTime).sum

/-- The first channel-scoped message of a track, skipping replicated
global messages. -/
def firstChannelEvent (l : List MidiMsg) : Option MidiMsg := l.find? isChannelMsg

/-- Is the message suppressed by the classifier (line 53)? -/
def suppressed (cfg : SplitConfig) : MidiMsg → Bool
  | .metaMsg kind _ => cfg.ignore_meta && inIgnoreList kind
  | .channelMsg _ _ _ => false

/-- Leading-silence invariant (meaningful when `trim_silence` is on and
both windows are disabled): an active channel already has a channel event
in its track, and the first channel event of every track has time 0. -/
def LeadZeroInv (s : SplitState) : Prop :=
  ∀ c : Fin 16,
    (s.active_channels c = true → (s.new_tracks c).any isChannelMsg = true)
    ∧ (∀ e, firstChannelEvent (s.new_tracks c) = some e → msgTime e = 0)

/-! ## Basic lemmas about the embedding -/

/-- Clearing the positive denominator is exact: `tickAtLeast` decides
`second2tick … ≤ t`. -/
theorem tickAtLeast_iff (sec tpb tempo t : Nat) (h : 0 < tempo) :
    tickAtLeast sec tpb tempo t = true ↔ second2tick sec tpb tempo ≤ (t : ℚ) := by
  rw [tickAtLeast, second2tick, decide_eq_true_iff,
    div_le_iff₀ (by exact_mod_cast h)]
  exact_mod_cast Iff.rfl

/-- Clearing the positive denominator is exact: `tickAtMost` decides
`t ≤ second2tick …`. -/
theorem tickAtMost_iff (sec tpb tempo t : Nat) (h : 0 < tempo) :
    tickAtMost sec tpb tempo t = true ↔ (t : ℚ) ≤ second2tick sec tpb tempo := by
  rw [tickAtMost, second2tick, decide_eq_true_iff,
    le_div_iff₀ (by exact_mod_cast h)]
  exact_mod_cast Iff.rfl

@[simp]
theorem msgTime_channelMsg (c : Fin 16) (kind : ChanKind) (t : Nat) :
    msgTime (MidiMsg.channelMsg c kind t) = t := rfl

@[simp]
theorem msgTime_metaMsg (kind : MetaKind) (t : Nat) :
    msgTime (MidiMsg.metaMsg kind t) = t := rfl

@[simp]
theorem sumTimes_nil : sumTimes [] = 0 := rfl

@[simp]
theorem sumTimes_cons (m : MidiMsg) (l : List MidiMsg) :
    sumTimes (m :: l) = msgTime m + sumTimes l := rfl

@[simp]
theorem sumTimes_append (l₁ l₂ : List MidiMsg) :
    sumTimes (l₁ ++ l₂) = sumTimes l₁ + sumTimes l₂ := by
  simp [sumTimes]

/-- Equation lemma: the global/meta branch of the loop body. -/
theorem stepSplit_metaMsg (cfg : SplitConfig) (s : SplitState)
    (kind : MetaKind) (time : Nat) :
    stepSplit cfg s (MidiMsg.metaMsg kind time) =
      if cfg.ignore_meta && inIgnoreList kind then s
      else
        { s with
          new_tracks := fun k => s.new_tracks k ++ [MidiMsg.metaMsg kind time]
          tempo := match kind with
            | .setTempo t => t
            | _ => s.tempo } := rfl

/-- Equation lemma: the channel branch of the loop body, with the window
decision exposed. -/
theorem stepSplit_channelMsg (cfg : SplitConfig) (s : SplitState)
    (c : Fin 16) (kind : ChanKind) (time : Nat) :
    stepSplit cfg s (MidiMsg.channelMsg c kind time) =
      { new_tracks :=
          if cutoffDrops cfg s.tempo (s.total_ticks c + newTimeOf cfg s c time)
              || (!cutoffDrops cfg s.tempo (s.total_ticks c + newTimeOf cfg s c time)
                  && offsetDrops cfg s.tempo (s.total_ticks c + newTimeOf cfg s c time)) then
            s.new_tracks
          else fun k =>
            if k = c then
              s.new_tracks k ++ [MidiMsg.channelMsg c kind (emittedTimeOf cfg s c time)]
            else s.new_tracks k
        delta_ticks := fun k => if k = c then 0 else s.delta_ticks k + time
        total_ticks := fun k =>
          if k = c then s.total_ticks k + newTimeOf cfg s c time else s.total_ticks k
        instruments := match kind with
          | ChanKind.programChange p => fun k => if k = c then p else s.instruments k
          | _ => s.instruments
        active_channels := match kind with
          | ChanKind.noteOn => fun k => if k = c then true else s.active_channels k
          | _ => s.active_channels
        tempo := s.tempo } := rfl

/-- Field lemma: a suppressed meta message leaves the state unchanged. -/
theorem stepSplit_meta_suppressed (cfg : SplitConfig) (s : SplitState)
    (kind : MetaKind) (time : Nat)
    (h : (cfg.ignore_meta && inIgnoreList kind) = true) :
    stepSplit cfg s (MidiMsg.metaMsg kind time) = s := by
  rw [stepSplit_metaMsg, if_pos h]

/-- Field lemma: an unsuppressed meta message is appended to every
track. -/
theorem stepSplit_meta_tracks (cfg : SplitConfig) (s : SplitState)
    (kind : MetaKind) (time : Nat)
    (h : (cfg.ignore_meta && inIgnoreList kind) = false) :
    (stepSplit cfg s (MidiMsg.metaMsg kind time)).new_tracks =
      fun k => s.new_tracks k ++ [MidiMsg.metaMsg kind time] := by
  rw [stepSplit_metaMsg, if_neg (by simp [h])]

/-- Field lemma: a meta message never changes the activity flags. -/
theorem stepSplit_meta_active (cfg : SplitConfig) (s : SplitState)
    (kind : MetaKind) (time : Nat) :
    (stepSplit cfg s (MidiMsg.metaMsg kind time)).active_channels
      = s.active_channels := by
  rw [stepSplit_metaMsg]
  split <;> rfl

/-- Field lemma: with both windows disabled a channel message is always
appended to its own track, with the emitted time of line 86, and other
tracks are unchanged. -/
theorem stepSplit_channel_tracks_kept (cfg : SplitConfig) (s : SplitState)
    (c : Fin 16) (kind : ChanKind) (time : Nat)
    (hCut : optTruthy cfg.cutoff = false) (hOff : optTruthy cfg.offset = false) :
    (stepSplit cfg s (MidiMsg.channelMsg c kind time)).new_tracks =
      fun k =>
        if k = c then
          s.new_tracks k ++ [MidiMsg.channelMsg c kind (emittedTimeOf cfg s c time)]
        else s.new_tracks k := by
  rw [stepSplit_channelMsg]
  simp [cutoffDrops, offsetDrops, hCut, hOff]

/-- Field lemma: a channel message updates the activity flags only by
possibly activating its own channel on `note_on`. -/
theorem stepSplit_channel_active (cfg : SplitConfig) (s : SplitState)
    (c : Fin 16) (kind : ChanKind) (time : Nat) :
    (stepSplit cfg s (MidiMsg.channelMsg c kind time)).active_channels =
      match kind with
      | ChanKind.noteOn => fun k => if k = c then true else s.active_channels k
      | _ => s.active_channels := rfl

/-- Field lemma: the tracks after a channel message, window decision
exposed. -/
theorem stepSplit_channel_tracks (cfg : SplitConfig) (s : SplitState)
    (c : Fin 16) (kind : ChanKind) (time : Nat) :
    (stepSplit cfg s (MidiMsg.channelMsg c kind time)).new_tracks =
      if cutoffDrops cfg s.tempo (s.total_ticks c + newTimeOf cfg s c time)
          || (!cutoffDrops cfg s.tempo (s.total_ticks c + newTimeOf cfg s c time)
              && offsetDrops cfg s.tempo (s.total_ticks c + newTimeOf cfg s c time)) then
        s.new_tracks
      else fun k =>
        if k = c then
          s.new_tracks k ++ [MidiMsg.channelMsg c kind (emittedTimeOf cfg s c time)]
        else s.new_tracks k := rfl

/-- Helper: a channel event always zeroes its own channel's carry. -/
theorem stepSplit_delta_self (cfg : SplitConfig) (s : SplitState)
    (c : Fin 16) (kind : ChanKind) (t : Nat) :
    (stepSplit cfg s (MidiMsg.channelMsg c kind t)).delta_ticks c = 0 := by
  rw [stepSplit_channelMsg]
  simp

/-! ## C3: carry reset survives window dropping -/

/-- **C3.** Processing a channel event for channel `c` always resets that
channel's tick carry `delta_ticks[c]` to zero (lines 78–79), regardless of
whether the event is afterwards dropped by the cutoff/offset window
filtering of lines 101–109; a dropped event's time interval is therefore
not carried forward into the time of the next kept event on `c`.  The
statement is unconditional in the configuration and the state, so it holds
in particular when the filtering drops the event. -/
theorem stepSplit_channel_resets_delta (cfg : SplitConfig) (s : SplitState)
    (c : Fin 16) (kind : ChanKind) (t : Nat) :
    (stepSplit cfg s (MidiMsg.channelMsg c kind t)).delta_ticks c = 0 :=
  stepSplit_delta_self cfg s c kind t

/-! ## C1: per-event absolute timing -/

/-- One step preserves the timing invariant: with silence trimming off,
meta suppression off and both windows disabled, for every channel the sum
of the emitted times of its track plus its pending tick carry equals the
absolute tick clock (the sum of all consumed input times). -/
theorem stepSplit_sum_delta_inv (cfg : SplitConfig)
    (hTrim : cfg.trim_silence = false) (hIgn : cfg.ignore_meta = false)
    (hCut : optTruthy cfg.cutoff = false) (hOff : optTruthy cfg.offset = false)
    (s : SplitState) (m : MidiMsg) (A : Nat)
    (h : ∀ k, sumTimes (s.new_tracks k) + s.delta_ticks k = A) :
    ∀ k, sumTimes ((stepSplit cfg s m).new_tracks k)
        + (stepSplit cfg s m).delta_ticks k = A + msgTime m := by
  intro k
  have hk := h k
  cases m with
  | metaMsg kind time =>
    rw [show (stepSplit cfg s (MidiMsg.metaMsg kind time)).delta_ticks
          = s.delta_ticks by rw [stepSplit_metaMsg]; split <;> rfl]
    rw [stepSplit_meta_tracks cfg s kind time (by rw [hIgn]; rfl)]
    simp [sumTimes] at hk ⊢
    omega
  | channelMsg c kind time =>
    rw [show (stepSplit cfg s (MidiMsg.channelMsg c kind time)).delta_ticks
          = fun j => if j = c then 0 else s.delta_ticks j + time by
        rw [stepSplit_channelMsg]]
    rw [stepSplit_channel_tracks_kept cfg s c kind time hCut hOff]
    by_cases hkc : k = c
    · subst hkc
      simp [emittedTimeOf, newTimeOf, hTrim, sumTimes] at hk ⊢
      omega
    · simp [hkc, sumTimes] at hk ⊢
      omega

/-- The timing invariant propagated along the fold. -/
theorem foldl_sum_delta_inv (cfg : SplitConfig)
    (hTrim : cfg.trim_silence = false) (hIgn : cfg.ignore_meta = false)
    (hCut : optTruthy cfg.cutoff = false) (hOff : optTruthy cfg.offset = false)
    (events : List MidiMsg) :
    ∀ (s : SplitState) (A : Nat),
      (∀ k, sumTimes (s.new_tracks k) + s.delta_ticks k = A) →
      ∀ k, sumTimes ((events.foldl (stepSplit cfg) s).new_tracks k)
          + (events.foldl (stepSplit cfg) s).delta_ticks k = A + sumTimes events := by
  induction events with
  | nil =>
    intro s A h k
    simpa using h k
  | cons m rest ih =>
    intro s A h k
    have h' := stepSplit_sum_delta_inv cfg hTrim hIgn hCut hOff s m A h
    have := ih (stepSplit cfg s m) (A + msgTime m) h' k
    simp only [List.foldl_cons, sumTimes_cons]
    omega

/-- The timing invariant for a whole run from the initial state. -/
theorem runSplit_sum_delta_inv (cfg : SplitConfig)
    (hTrim : cfg.trim_silence = false) (hIgn : cfg.ignore_meta = false)
    (hCut : optTruthy cfg.cutoff = false) (hOff : optTruthy cfg.offset = false)
    (events : List MidiMsg) (k : Fin 16) :
    sumTimes ((runSplit cfg events).new_tracks k)
        + (runSplit cfg events).delta_ticks k = sumTimes events := by
  have := foldl_sum_delta_inv cfg hTrim hIgn hCut hOff events initState 0
    (fun _ => rfl) k
  simpa [runSplit] using this

/-- **C1 (amended).** With `trim_silence` off, meta suppression off and
both windows disabled, the sum of the `time` fields of channel `c`'s
output, up to and including the output event produced from a given input
channel event on `c`, equals that original event's absolute tick position
in the merged stream (the sum of all input times up to and including it);
moreover that output event is appended last, with the same kind and with
time equal to the pending carry plus its input delta.  Applied to every
prefix of an input stream this settles the property for every `n`-th
emitted channel event.  (The claim as frozen — independent of how many
events were dropped by window filtering, and silent on `trim_silence` and
meta suppression — is refuted by
`runSplit_dropped_event_breaks_timing`.) -/
theorem runSplit_sumTimes_eq_absolute (cfg : SplitConfig)
    (hTrim : cfg.trim_silence = false) (hIgn : cfg.ignore_meta = false)
    (hCut : optTruthy cfg.cutoff = false) (hOff : optTruthy cfg.offset = false)
    (p : List MidiMsg) (c : Fin 16) (kind : ChanKind) (t : Nat) :
    (runSplit cfg (p ++ [MidiMsg.channelMsg c kind t])).new_tracks c
        = (runSplit cfg p).new_tracks c
          ++ [MidiMsg.channelMsg c kind ((runSplit cfg p).delta_ticks c + t)]
    ∧ sumTimes ((runSplit cfg (p ++ [MidiMsg.channelMsg c kind t])).new_tracks c)
        = sumTimes (p ++ [MidiMsg.channelMsg c kind t]) := by
  constructor
  · rw [runSplit, runSplit, List.foldl_append, List.foldl_cons, List.foldl_nil]
    rw [stepSplit_channel_tracks_kept cfg _ c kind t hCut hOff]
    simp [emittedTimeOf, newTimeOf, hTrim]
  · have hsum := runSplit_sum_delta_inv cfg hTrim hIgn hCut hOff
      (p ++ [MidiMsg.channelMsg c kind t]) c
    have hdelta :
        (runSplit cfg (p ++ [MidiMsg.channelMsg c kind t])).delta_ticks c = 0 := by
      rw [runSplit, List.foldl_append, List.foldl_cons, List.foldl_nil]
      exact stepSplit_delta_self cfg _ c kind t
    omega

/-- **C1 counterexample.** The frozen claim asserts the absolute-timing
equality "independent of how many events were dropped" by window
filtering.  With `offset = 1` s (offset bound 960 ticks at the default
tempo) the first of two channel-0 events 500 ticks apart is dropped, its
500-tick interval is erased by the carry reset of lines 78–79, and the
channel-0 output consists of the single event that became output event
n = 1 with summed time 500, while the original event that produced it
sits at absolute tick position 1000 in the merged stream. -/
theorem runSplit_dropped_event_breaks_timing :
    (runSplit ⟨false, false, none, some 1, 480⟩
        [MidiMsg.channelMsg 0 ChanKind.noteOn 500,
         MidiMsg.channelMsg 0 ChanKind.noteOff 500]).new_tracks 0
        = [MidiMsg.channelMsg 0 ChanKind.noteOff 500]
    ∧ sumTimes ((runSplit ⟨false, false, none, some 1, 480⟩
        [MidiMsg.channelMsg 0 ChanKind.noteOn 500,
         MidiMsg.channelMsg 0 ChanKind.noteOff 500]).new_tracks 0) = 500
    ∧ sumTimes [MidiMsg.channelMsg 0 ChanKind.noteOn 500,
         MidiMsg.channelMsg 0 ChanKind.noteOff 500] = 1000 := by
  refine ⟨?_, ?_, ?_⟩ <;> decide

/-- Witness instantiating `runSplit_sumTimes_eq_absolute`: channel 1
speaks at tick 3, channel 0 then speaks 5 ticks later; channel 0's output
sums to 8, the absolute position of its event. -/
theorem runSplit_sumTimes_eq_absolute_witness :
    (false, false, (none : Option Nat), (none : Option Nat)) =
        ((⟨false, false, none, none, 480⟩ : SplitConfig).trim_silence,
          (⟨false, false, none, none, 480⟩ : SplitConfig).ignore_meta,
          (⟨false, false, none, none, 480⟩ : SplitConfig).cutoff,
          (⟨false, false, none, none, 480⟩ : SplitConfig).offset)
    ∧ ((runSplit ⟨false, false, none, none, 480⟩
          ([MidiMsg.channelMsg 1 ChanKind.noteOn 3]
            ++ [MidiMsg.channelMsg 0 ChanKind.noteOn 5])).new_tracks 0
        = (runSplit ⟨false, false, none, none, 480⟩
            [MidiMsg.channelMsg 1 ChanKind.noteOn 3]).new_tracks 0
          ++ [MidiMsg.channelMsg 0 ChanKind.noteOn
                ((runSplit ⟨false, false, none, none, 480⟩
                  [MidiMsg.channelMsg 1 ChanKind.noteOn 3]).delta_ticks 0 + 5)]
      ∧ sumTimes ((runSplit ⟨false, false, none, none, 480⟩
          ([MidiMsg.channelMsg 1 ChanKind.noteOn 3]
            ++ [MidiMsg.channelMsg 0 ChanKind.noteOn 5])).new_tracks 0)
        = sumTimes ([MidiMsg.channelMsg 1 ChanKind.noteOn 3]
            ++ [MidiMsg.channelMsg 0 ChanKind.noteOn 5])) :=
  ⟨rfl, runSplit_sumTimes_eq_absolute ⟨false, false, none, none, 480⟩
    rfl rfl rfl rfl [MidiMsg.channelMsg 1 ChanKind.noteOn 3] 0 ChanKind.noteOn 5⟩

/-! ## C2: leading-silence suppression -/

/-- One step preserves the leading-silence invariant when `trim_silence`
is on and both windows are disabled. -/
theorem stepSplit_leadZero (cfg : SplitConfig)
    (hTrim : cfg.trim_silence = true) (hCut : optTruthy cfg.cutoff = false)
    (hOff : optTruthy cfg.offset = false) (s : SplitState) (m : MidiMsg)
    (h : LeadZeroInv s) : LeadZeroInv (stepSplit cfg s m) := by
  cases m with
  | metaMsg kind time =>
    cases hsup : cfg.ignore_meta && inIgnoreList kind with
    | true =>
      rw [stepSplit_meta_suppressed cfg s kind time hsup]
      exact h
    | false =>
      intro c
      rw [stepSplit_meta_active, stepSplit_meta_tracks cfg s kind time hsup]
      constructor
      · intro ha
        have h1 := (h c).1 ha
        simp [h1]
      · intro e he
        simp only at he
        rw [firstChannelEvent, List.find?_append,
          show List.find? isChannelMsg [MidiMsg.metaMsg kind time] = none from rfl,
          Option.or_none] at he
        exact (h c).2 e he
  | channelMsg c0 kind time =>
    intro c
    rw [stepSplit_channel_active,
      stepSplit_channel_tracks_kept cfg s c0 kind time hCut hOff]
    by_cases hc : c = c0
    · subst hc
      constructor
      · intro _
        simp [isChannelMsg]
      · intro e he
        simp only [if_true] at he
        rw [firstChannelEvent, List.find?_append] at he
        cases hfind : (s.new_tracks c).find? isChannelMsg with
        | some e' =>
          rw [hfind, Option.or_some] at he
          exact (h c).2 e (by rw [firstChannelEvent, hfind, he])
        | none =>
          rw [hfind, Option.none_or] at he
          have hnotany : (s.new_tracks c).any isChannelMsg = false := by
            rw [List.find?_eq_none] at hfind
            by_contra hany
            rw [Bool.not_eq_false, List.any_eq_true] at hany
            obtain ⟨x, hx, hpx⟩ := hany
            exact hfind x hx hpx
          have hactive : s.active_channels c = false := by
            by_contra hac
            rw [Bool.not_eq_false] at hac
            rw [(h c).1 hac] at hnotany
            exact absurd hnotany (by simp)
          have hemit : emittedTimeOf cfg s c time = 0 := by
            simp [emittedTimeOf, hactive, hTrim]
          rw [List.find?_cons_of_pos _ (by rfl)] at he
          cases he
          simp [hemit]
    · constructor
      · intro ha
        have ha' : s.active_channels c = true := by
          cases kind <;> simpa [hc] using ha
        have h1 := (h c).1 ha'
        simpa [hc] using h1
      · intro e he
        simp only at he
        rw [if_neg hc] at he
        exact (h c).2 e he

/-- The leading-silence invariant holds after any run with
`trim_silence` on and both windows disabled. -/
theorem runSplit_leadZero (cfg : SplitConfig)
    (hTrim : cfg.trim_silence = true) (hCut : optTruthy cfg.cutoff = false)
    (hOff : optTruthy cfg.offset = false) (events : List MidiMsg) :
    LeadZeroInv (runSplit cfg events) := by
  rw [runSplit]
  generalize hs : initState = s0
  have h0 : LeadZeroInv s0 := by
    subst hs
    intro c
    refine ⟨fun hact => ?_, fun e he => ?_⟩
    · exact absurd hact (by simp [initState])
    · exact absurd he (by simp [initState, firstChannelEvent])
  clear hs
  induction events generalizing s0 with
  | nil => exact h0
  | cons m rest ih =>
    exact ih _ (stepSplit_leadZero cfg hTrim hCut hOff s0 m h0)

/-- **C2 (amended).** Leading-silence suppression applies only when
`trim_silence` is set (line 86 reads `active_channels[channel] or not
trim_silence`): with `trim_silence = true`, every channel event processed
while `active_channels[c]` is still false — including the channel's first
`note_on` itself, since activation happens only afterwards (lines 89–90)
— is emitted with time 0 when it is kept at all; consequently, with both
windows disabled, the first channel event of every channel's output track
has time 0.  (The frozen claim, which asserts this regardless of the
`trim_silence` flag, is refuted by `runSplit_trim_off_keeps_first_time`.) -/
theorem stepSplit_inactive_emits_zero :
    (∀ (cfg : SplitConfig) (s : SplitState) (c : Fin 16) (kind : ChanKind) (t : Nat),
        cfg.trim_silence = true → s.active_channels c = false →
        (stepSplit cfg s (MidiMsg.channelMsg c kind t)).new_tracks c = s.new_tracks c
        ∨ (stepSplit cfg s (MidiMsg.channelMsg c kind t)).new_tracks c
            = s.new_tracks c ++ [MidiMsg.channelMsg c kind 0])
    ∧ (∀ (cfg : SplitConfig) (events : List MidiMsg) (c : Fin 16) (e : MidiMsg),
        cfg.trim_silence = true → optTruthy cfg.cutoff = false →
        optTruthy cfg.offset = false →
        firstChannelEvent ((runSplit cfg events).new_tracks c) = some e →
        msgTime e = 0) := by
  constructor
  · intro cfg s c kind t hTrim hact
    rw [stepSplit_channel_tracks]
    by_cases hdrop :
        (cutoffDrops cfg s.tempo (s.total_ticks c + newTimeOf cfg s c t)
          || (!cutoffDrops cfg s.tempo (s.total_ticks c + newTimeOf cfg s c t)
              && offsetDrops cfg s.tempo (s.total_ticks c + newTimeOf cfg s c t))) = true
    · left
      rw [if_pos hdrop]
    · right
      rw [if_neg hdrop]
      have hemit : emittedTimeOf cfg s c t = 0 := by
        simp [emittedTimeOf, hact, hTrim]
      simp [hemit]
  · intro cfg events c e hTrim hCut hOff hfind
    exact ((runSplit_leadZero cfg hTrim hCut hOff events) c).2 e hfind

/-- **C2 counterexample.** With `trim_silence = false` the zeroing of
line 86 is bypassed (`or not trim_silence` makes the condition true), so
a channel's very first event keeps its nonzero time: the first emitted
event of active channel 0 has time 5, not 0, refuting "regardless of the
trim_silence flag ... the first emitted event of every active channel has
time == 0". -/
theorem runSplit_trim_off_keeps_first_time :
    initState.active_channels 0 = false
    ∧ (runSplit ⟨false, false, none, none, 480⟩
        [MidiMsg.channelMsg 0 ChanKind.noteOn 5]).new_tracks 0
      = [MidiMsg.channelMsg 0 ChanKind.noteOn 5]
    ∧ (runSplit ⟨false, false, none, none, 480⟩
        [MidiMsg.channelMsg 0 ChanKind.noteOn 5]).active_channels 0 = true
    ∧ firstChannelEvent ((runSplit ⟨false, false, none, none, 480⟩
        [MidiMsg.channelMsg 0 ChanKind.noteOn 5]).new_tracks 0)
      = some (MidiMsg.channelMsg 0 ChanKind.noteOn 5)
    ∧ msgTime (MidiMsg.channelMsg 0 ChanKind.noteOn 5) ≠ 0 := by
  refine ⟨?_, ?_, ?_, ?_, ?_⟩ <;> decide

/-- Witness instantiating `stepSplit_inactive_emits_zero`: with trimming
on, inactive channel 0's first `note_on` (input delta 7) is emitted with
time 0, and the first channel event of the resulting track has time 0. -/
theorem stepSplit_inactive_emits_zero_witness :
    ((⟨true, false, none, none, 480⟩ : SplitConfig).trim_silence = true
      ∧ initState.active_channels 0 = false
      ∧ ((stepSplit ⟨true, false, none, none, 480⟩ initState
            (MidiMsg.channelMsg 0 ChanKind.noteOn 7)).new_tracks 0
          = initState.new_tracks 0
        ∨ (stepSplit ⟨true, false, none, none, 480⟩ initState
            (MidiMsg.channelMsg 0 ChanKind.noteOn 7)).new_tracks 0
          = initState.new_tracks 0 ++ [MidiMsg.channelMsg 0 ChanKind.noteOn 0]))
    ∧ (firstChannelEvent ((runSplit ⟨true, false, none, none, 480⟩
          [MidiMsg.channelMsg 0 ChanKind.noteOn 7]).new_tracks 0)
        = some (MidiMsg.channelMsg 0 ChanKind.noteOn 0)
      ∧ msgTime (MidiMsg.channelMsg 0 ChanKind.noteOn 0) = 0) :=
  ⟨⟨rfl, rfl,
    stepSplit_inactive_emits_zero.1 ⟨true, false, none, none, 480⟩ initState
      0 ChanKind.noteOn 7 rfl rfl⟩,
   by decide,
   stepSplit_inactive_emits_zero.2 ⟨true, false, none, none, 480⟩
     [MidiMsg.channelMsg 0 ChanKind.noteOn 7] 0
     (MidiMsg.channelMsg 0 ChanKind.noteOn 0) rfl rfl rfl (by decide)⟩

/-! ## C4: window filtering order and semantics -/

/-- Helper: `cutoffDrops` agrees with the rational cutoff comparison when
the tempo is positive. -/
theorem cutoffDrops_iff (cfg : SplitConfig) (tempo total : Nat) (h : 0 < tempo) :
    cutoffDrops cfg tempo total = true ↔
      (optTruthy cfg.cutoff = true
        ∧ second2tick (cfg.cutoff.getD 0) cfg.ticks_per_beat tempo ≤ (total : ℚ)) := by
  rw [cutoffDrops, Bool.and_eq_true, tickAtLeast_iff _ _ _ _ h]

/-- Helper: `offsetDrops` agrees with the rational offset comparison when
the tempo is positive. -/
theorem offsetDrops_iff (cfg : SplitConfig) (tempo total : Nat) (h : 0 < tempo) :
    offsetDrops cfg tempo total = true ↔
      (optTruthy cfg.offset = true
        ∧ (total : ℚ) ≤ second2tick (cfg.offset.getD 0) cfg.ticks_per_beat tempo) := by
  rw [offsetDrops, Bool.and_eq_true, tickAtMost_iff _ _ _ _ h]

/-- **C4.** For every channel event, window filtering happens only after
the time and state bookkeeping of lines 75–99: `total_ticks[c]` is already
updated by `new_time` (and the carry already reset) when the filters read
it.  Cutoff is checked before offset; the event is dropped when the
cutoff is given (truthy) and the updated total has reached
`second2tick cutoff ticks_per_beat tempo`, else when the offset is given
and the updated total is still at most
`second2tick offset ticks_per_beat tempo`; otherwise it is appended with
the emitted time of line 86.  Both bounds use the tempo held at the
moment of this event. -/
theorem stepSplit_window_order (cfg : SplitConfig) (s : SplitState)
    (c : Fin 16) (kind : ChanKind) (t : Nat) (htempo : 0 < s.tempo) :
    (stepSplit cfg s (MidiMsg.channelMsg c kind t)).total_ticks c
        = s.total_ticks c + newTimeOf cfg s c t
    ∧ (stepSplit cfg s (MidiMsg.channelMsg c kind t)).delta_ticks c = 0
    ∧ (stepSplit cfg s (MidiMsg.channelMsg c kind t)).new_tracks c =
        (if optTruthy cfg.cutoff = true
            ∧ second2tick (cfg.cutoff.getD 0) cfg.ticks_per_beat s.tempo
              ≤ ((s.total_ticks c + newTimeOf cfg s c t : Nat) : ℚ) then
          s.new_tracks c
        else if optTruthy cfg.offset = true
            ∧ ((s.total_ticks c + newTimeOf cfg s c t : Nat) : ℚ)
              ≤ second2tick (cfg.offset.getD 0) cfg.ticks_per_beat s.tempo then
          s.new_tracks c
        else
          s.new_tracks c ++ [MidiMsg.channelMsg c kind (emittedTimeOf cfg s c t)]) := by
  refine ⟨by rw [stepSplit_channelMsg]; simp, stepSplit_delta_self cfg s c kind t, ?_⟩
  rw [stepSplit_channel_tracks]
  by_cases hP1 : optTruthy cfg.cutoff = true
      ∧ second2tick (cfg.cutoff.getD 0) cfg.ticks_per_beat s.tempo
        ≤ ((s.total_ticks c + newTimeOf cfg s c t : Nat) : ℚ)
  · have hcd : cutoffDrops cfg s.tempo (s.total_ticks c + newTimeOf cfg s c t) = true :=
      (cutoffDrops_iff cfg s.tempo _ htempo).mpr hP1
    rw [if_pos hP1]
    simp [hcd]
  · have hcd : cutoffDrops cfg s.tempo (s.total_ticks c + newTimeOf cfg s c t) = false := by
      cases hcdv : cutoffDrops cfg s.tempo (s.total_ticks c + newTimeOf cfg s c t) with
      | false => rfl
      | true => exact absurd ((cutoffDrops_iff cfg s.tempo _ htempo).mp hcdv) hP1
    rw [if_neg hP1]
    by_cases hP2 : optTruthy cfg.offset = true
        ∧ ((s.total_ticks c + newTimeOf cfg s c t : Nat) : ℚ)
          ≤ second2tick (cfg.offset.getD 0) cfg.ticks_per_beat s.tempo
    · have hod : offsetDrops cfg s.tempo (s.total_ticks c + newTimeOf cfg s c t) = true :=
        (offsetDrops_iff cfg s.tempo _ htempo).mpr hP2
      rw [if_pos hP2]
      simp [hcd, hod]
    · have hod : offsetDrops cfg s.tempo (s.total_ticks c + newTimeOf cfg s c t) = false := by
        cases hodv : offsetDrops cfg s.tempo (s.total_ticks c + newTimeOf cfg s c t) with
        | false => rfl
        | true => exact absurd ((offsetDrops_iff cfg s.tempo _ htempo).mp hodv) hP2
      rw [if_neg hP2]
      simp [hcd, hod]

/-- Witness instantiating `stepSplit_window_order` at the initial state
with `cutoff = offset = 1` second and a 500-tick `note_on` on channel 0. -/
theorem stepSplit_window_order_witness :
    0 < initState.tempo
    ∧ ((stepSplit ⟨false, false, some 1, some 1, 480⟩ initState
          (MidiMsg.channelMsg 0 ChanKind.noteOn 500)).total_ticks 0
        = initState.total_ticks 0
          + newTimeOf ⟨false, false, some 1, some 1, 480⟩ initState 0 500
      ∧ (stepSplit ⟨false, false, some 1, some 1, 480⟩ initState
          (MidiMsg.channelMsg 0 ChanKind.noteOn 500)).delta_ticks 0 = 0
      ∧ (stepSplit ⟨false, false, some 1, some 1, 480⟩ initState
          (MidiMsg.channelMsg 0 ChanKind.noteOn 500)).new_tracks 0 =
        (if optTruthy (SplitConfig.mk false false (some 1) (some 1) 480).cutoff = true
            ∧ second2tick
                ((SplitConfig.mk false false (some 1) (some 1) 480).cutoff.getD 0)
                (SplitConfig.mk false false (some 1) (some 1) 480).ticks_per_beat
                initState.tempo
              ≤ ((initState.total_ticks 0
                  + newTimeOf ⟨false, false, some 1, some 1, 480⟩ initState 0 500 : Nat) : ℚ) then
          initState.new_tracks 0
        else if optTruthy (SplitConfig.mk false false (some 1) (some 1) 480).offset = true
            ∧ ((initState.total_ticks 0
                + newTimeOf ⟨false, false, some 1, some 1, 480⟩ initState 0 500 : Nat) : ℚ)
              ≤ second2tick
                  ((SplitConfig.mk false false (some 1) (some 1) 480).offset.getD 0)
                  (SplitConfig.mk false false (some 1) (some 1) 480).ticks_per_beat
                  initState.tempo then
          initState.new_tracks 0
        else
          initState.new_tracks 0
            ++ [MidiMsg.channelMsg 0 ChanKind.noteOn
                  (emittedTimeOf ⟨false, false, some 1, some 1, 480⟩ initState 0 500)])) :=
  ⟨by decide,
   stepSplit_window_order ⟨false, false, some 1, some 1, 480⟩ initState
     0 ChanKind.noteOn 500 (by decide)⟩

/-! ## C5: the offset/cutoff scenario numbers -/

/-- **C5 counterexample.** The claimed bounds are wrong: with tempo
500000 µs/beat (0.5 s/beat) and 480 ticks/beat, one second is 960 ticks,
so `second2tick 2 480 500000 = 1920`, not 2000, and
`second2tick 1 480 500000 = 960`, not 1000. -/
theorem second2tick_bounds_cex :
    second2tick 2 480 500000 ≠ 2000 ∧ second2tick 1 480 500000 ≠ 1000 := by
  constructor <;> norm_num [second2tick]

/-- **C5 (amended).** With tempo 500000 µs/beat and `ticks_per_beat`
480, the window bounds are `offset_tick = second2tick 2 480 500000 =
1920` (not 2000) and `cutoff_tick = second2tick 1 480 500000 = 960` (not
1000); with `offset = 2` s, a channel-2 stream whose three events reach
cumulative totals 500, 1500 and 2500 drops the first two events
(≤ 1920) and keeps only the third — the same drop/keep pattern the claim
describes, at the corrected bounds. -/
theorem runSplit_offset_window_scenario :
    second2tick 2 480 500000 = 1920
    ∧ second2tick 1 480 500000 = 960
    ∧ (runSplit ⟨false, false, none, some 2, 480⟩
        [MidiMsg.channelMsg 2 ChanKind.noteOn 500,
         MidiMsg.channelMsg 2 ChanKind.noteOff 1000,
         MidiMsg.channelMsg 2 ChanKind.noteOn 1000]).new_tracks 2
      = [MidiMsg.channelMsg 2 ChanKind.noteOn 1000]
    ∧ (runSplit ⟨false, false, none, some 2, 480⟩
        [MidiMsg.channelMsg 2 ChanKind.noteOn 500,
         MidiMsg.channelMsg 2 ChanKind.noteOff 1000,
         MidiMsg.channelMsg 2 ChanKind.noteOn 1000]).total_ticks 2 = 2500 :=
  ⟨by norm_num [second2tick], by norm_num [second2tick], by decide, by decide⟩

/-! ## C6: clamping at 10000 is tied to trim_silence -/

/-- Helper: with `trim_silence` on, the emitted time of line 86 never
exceeds 10000. -/
theorem emittedTimeOf_le_of_trim (cfg : SplitConfig) (s : SplitState)
    (c : Fin 16) (t : Nat) (hTrim : cfg.trim_silence = true) :
    emittedTimeOf cfg s c t ≤ 10000 := by
  rw [emittedTimeOf, newTimeOf, hTrim]
  simp only [Bool.true_and, Bool.not_true, Bool.or_false, decide_eq_true_eq]
  split_ifs <;> omega

/-- Helper: with `trim_silence` off, the emitted time is exactly the
carry plus the input delta, with no clamping and no zeroing. -/
theorem emittedTimeOf_of_not_trim (cfg : SplitConfig) (s : SplitState)
    (c : Fin 16) (t : Nat) (hTrim : cfg.trim_silence = false) :
    emittedTimeOf cfg s c t = s.delta_ticks c + t := by
  rw [emittedTimeOf, newTimeOf, hTrim]
  simp

/-- One step preserves "all channel events in all tracks have time ≤
10000" when `trim_silence` is on. -/
theorem stepSplit_time_le_inv (cfg : SplitConfig)
    (hTrim : cfg.trim_silence = true) (s : SplitState) (m : MidiMsg)
    (h : ∀ (c : Fin 16) m', m' ∈ s.new_tracks c → isChannelMsg m' = true →
      msgTime m' ≤ 10000) :
    ∀ (c : Fin 16) m', m' ∈ (stepSplit cfg s m).new_tracks c →
      isChannelMsg m' = true → msgTime m' ≤ 10000 := by
  intro c m' hm' hchan
  cases m with
  | metaMsg kind time =>
    rw [stepSplit_metaMsg] at hm'
    by_cases hsup : (cfg.ignore_meta && inIgnoreList kind) = true
    · rw [if_pos hsup] at hm'
      exact h c m' hm' hchan
    · rw [if_neg hsup] at hm'
      simp only at hm'
      rcases List.mem_append.mp hm' with h1 | h1
      · exact h c m' h1 hchan
      · rw [List.mem_singleton] at h1
        subst h1
        simp [isChannelMsg] at hchan
  | channelMsg c0 kind time =>
    rw [stepSplit_channel_tracks] at hm'
    by_cases hdrop :
        (cutoffDrops cfg s.tempo (s.total_ticks c0 + newTimeOf cfg s c0 time)
          || (!cutoffDrops cfg s.tempo (s.total_ticks c0 + newTimeOf cfg s c0 time)
              && offsetDrops cfg s.tempo (s.total_ticks c0 + newTimeOf cfg s c0 time))) = true
    · rw [if_pos hdrop] at hm'
      exact h c m' hm' hchan
    · rw [if_neg hdrop] at hm'
      by_cases hc : c = c0
      · subst hc
        rw [if_pos rfl] at hm'
        rcases List.mem_append.mp hm' with h1 | h1
        · exact h c m' h1 hchan
        · rw [List.mem_singleton] at h1
          subst h1
          simpa using emittedTimeOf_le_of_trim cfg s c time hTrim
      · rw [if_neg hc] at hm'
        exact h c m' hm' hchan

/-- **C6.** With `trim_silence = false` no channel event's time is ever
clamped: a channel event is either dropped or appended with exactly
`delta_ticks[c] + event.time`, however large (lines 82–86 clamp and zero
only under `trim_silence`).  With `trim_silence = true`, every channel
event found in any output track of a run has time ≤ 10000. -/
theorem trim_silence_clamp_semantics :
    (∀ (cfg : SplitConfig) (s : SplitState) (c : Fin 16) (kind : ChanKind) (t : Nat),
        cfg.trim_silence = false →
        (stepSplit cfg s (MidiMsg.channelMsg c kind t)).new_tracks c = s.new_tracks c
        ∨ (stepSplit cfg s (MidiMsg.channelMsg c kind t)).new_tracks c
            = s.new_tracks c ++ [MidiMsg.channelMsg c kind (s.delta_ticks c + t)])
    ∧ (∀ (cfg : SplitConfig) (events : List MidiMsg) (c : Fin 16) (m : MidiMsg),
        cfg.trim_silence = true →
        m ∈ (runSplit cfg events).new_tracks c → isChannelMsg m = true →
        msgTime m ≤ 10000) := by
  constructor
  · intro cfg s c kind t hTrim
    rw [stepSplit_channel_tracks]
    by_cases hdrop :
        (cutoffDrops cfg s.tempo (s.total_ticks c + newTimeOf cfg s c t)
          || (!cutoffDrops cfg s.tempo (s.total_ticks c + newTimeOf cfg s c t)
              && offsetDrops cfg s.tempo (s.total_ticks c + newTimeOf cfg s c t))) = true
    · left
      rw [if_pos hdrop]
    · right
      rw [if_neg hdrop, emittedTimeOf_of_not_trim cfg s c t hTrim]
      simp
  · intro cfg events c m hTrim
    rw [runSplit]
    generalize hs : initState = s0
    have h0 : ∀ (c : Fin 16) m', m' ∈ s0.new_tracks c → isChannelMsg m' = true →
        msgTime m' ≤ 10000 := by
      subst hs
      intro c m' hm'
      simp [initState] at hm'
    clear hs
    induction events generalizing s0 with
    | nil => exact fun hm hch => h0 c m hm hch
    | cons e rest ih =>
      exact ih (stepSplit cfg s0 e) (stepSplit_time_le_inv cfg hTrim s0 e h0)

/-- Witness instantiating `trim_silence_clamp_semantics`: with trimming
off a 20000-tick event keeps (or would keep) its full time; with trimming
on, the clamped `note_off` (input delta 99999, emitted 10000) in the
channel-0 output obeys the 10000 bound. -/
theorem trim_silence_clamp_semantics_witness :
    ((stepSplit ⟨false, false, none, none, 480⟩ initState
        (MidiMsg.channelMsg 0 ChanKind.noteOn 20000)).new_tracks 0
      = initState.new_tracks 0
      ∨ (stepSplit ⟨false, false, none, none, 480⟩ initState
        (MidiMsg.channelMsg 0 ChanKind.noteOn 20000)).new_tracks 0
      = initState.new_tracks 0
        ++ [MidiMsg.channelMsg 0 ChanKind.noteOn (initState.delta_ticks 0 + 20000)])
    ∧ MidiMsg.channelMsg 0 ChanKind.noteOff 10000
        ∈ (runSplit ⟨true, false, none, none, 480⟩
            [MidiMsg.channelMsg 0 ChanKind.noteOn 0,
             MidiMsg.channelMsg 0 ChanKind.noteOff 99999]).new_tracks 0
    ∧ msgTime (MidiMsg.channelMsg 0 ChanKind.noteOff 10000) ≤ 10000 :=
  ⟨trim_silence_clamp_semantics.1 ⟨false, false, none, none, 480⟩ initState
      0 ChanKind.noteOn 20000 rfl,
   by decide,
   trim_silence_clamp_semantics.2 ⟨true, false, none, none, 480⟩
     [MidiMsg.channelMsg 0 ChanKind.noteOn 0,
      MidiMsg.channelMsg 0 ChanKind.noteOff 99999] 0
     (MidiMsg.channelMsg 0 ChanKind.noteOff 10000) rfl (by decide) (by decide)⟩

/-! ## C7: global events are replicated unchanged into every track -/

/-- Helper: folding the loop, the global messages found in any channel's
track are exactly the unsuppressed global messages of the consumed input,
in input order and unmodified. -/
theorem foldl_meta_filter (cfg : SplitConfig) (events : List MidiMsg) :
    ∀ (s : SplitState) (c : Fin 16),
      ((events.foldl (stepSplit cfg) s).new_tracks c).filter isMetaMsg
        = ((s.new_tracks c).filter isMetaMsg)
          ++ events.filter (fun m => isMetaMsg m && !suppressed cfg m) := by
  induction events with
  | nil =>
    intro s c
    simp
  | cons m rest ih =>
    intro s c
    rw [List.foldl_cons, ih]
    cases m with
    | metaMsg kind time =>
      by_cases hsup : (cfg.ignore_meta && inIgnoreList kind) = true
      · rw [stepSplit_meta_suppressed cfg s kind time hsup,
          List.filter_cons_of_neg (by simp [isMetaMsg, suppressed, hsup])]
      · have hsup' : (cfg.ignore_meta && inIgnoreList kind) = false :=
          Bool.eq_false_iff.mpr hsup
        rw [stepSplit_meta_tracks cfg s kind time hsup',
          List.filter_cons_of_pos (by simp [isMetaMsg, suppressed, hsup']),
          List.filter_append]
        simp [isMetaMsg]
    | channelMsg c0 kind time =>
      rw [List.filter_cons_of_neg (by simp [isMetaMsg])]
      congr 1
      rw [stepSplit_channel_tracks]
      by_cases hdrop :
          (cutoffDrops cfg s.tempo (s.total_ticks c0 + newTimeOf cfg s c0 time)
            || (!cutoffDrops cfg s.tempo (s.total_ticks c0 + newTimeOf cfg s c0 time)
                && offsetDrops cfg s.tempo
                    (s.total_ticks c0 + newTimeOf cfg s c0 time))) = true
      · rw [if_pos hdrop]
      · rw [if_neg hdrop]
        by_cases hc : c = c0
        · subst hc
          rw [if_pos rfl, List.filter_append]
          simp [isMetaMsg]
        · rw [if_neg hc]

/-- **C7.** Every global message not suppressed by the classifier is
appended unchanged — same kind, same payload, same `time` — to all
sixteen per-channel tracks (lines 63–66), and a `set_tempo` updates the
tempo before the next message is processed (lines 68–70); consequently
the global messages in every channel's output are exactly the
unsuppressed global messages of the input, in the same relative order,
and each is inserted at the position the single forward pass has reached,
i.e. after precisely those of the channel's events that precede it in the
input. -/
theorem global_events_replicated :
    (∀ (cfg : SplitConfig) (s : SplitState) (kind : MetaKind) (time : Nat),
        (cfg.ignore_meta && inIgnoreList kind) = false →
        (∀ c : Fin 16, (stepSplit cfg s (MidiMsg.metaMsg kind time)).new_tracks c
            = s.new_tracks c ++ [MidiMsg.metaMsg kind time])
        ∧ (stepSplit cfg s (MidiMsg.metaMsg kind time)).tempo
            = (match kind with | MetaKind.setTempo v => v | _ => s.tempo))
    ∧ (∀ (cfg : SplitConfig) (events : List MidiMsg) (c : Fin 16),
        ((runSplit cfg events).new_tracks c).filter isMetaMsg
          = events.filter (fun m => isMetaMsg m && !suppressed cfg m)) := by
  constructor
  · intro cfg s kind time hsup
    constructor
    · intro c
      rw [stepSplit_meta_tracks cfg s kind time hsup]
    · rw [stepSplit_metaMsg, if_neg (by simp [hsup])]
  · intro cfg events c
    have h := foldl_meta_filter cfg events initState c
    rw [runSplit, h]
    simp [initState]

/-- Witness instantiating `global_events_replicated`: a 300000 µs/beat
tempo change at time 25 lands unchanged in channel 7's track and updates
the tempo, even with `ignore_meta` on; and channel 5's track of a mixed
run carries exactly the unsuppressed global messages. -/
theorem global_events_replicated_witness :
    (((true : Bool) && inIgnoreList (MetaKind.setTempo 300000)) = false
      ∧ (stepSplit ⟨true, true, none, none, 480⟩ initState
          (MidiMsg.metaMsg (MetaKind.setTempo 300000) 25)).new_tracks 7
        = initState.new_tracks 7 ++ [MidiMsg.metaMsg (MetaKind.setTempo 300000) 25]
      ∧ (stepSplit ⟨true, true, none, none, 480⟩ initState
          (MidiMsg.metaMsg (MetaKind.setTempo 300000) 25)).tempo = 300000)
    ∧ ((runSplit ⟨true, true, none, none, 480⟩
          [MidiMsg.metaMsg MetaKind.text 5,
           MidiMsg.channelMsg 0 ChanKind.noteOn 3,
           MidiMsg.metaMsg MetaKind.endOfTrack 2]).new_tracks 5).filter isMetaMsg
        = [MidiMsg.metaMsg MetaKind.text 5,
           MidiMsg.channelMsg 0 ChanKind.noteOn 3,
           MidiMsg.metaMsg MetaKind.endOfTrack 2].filter
            (fun m => isMetaMsg m
              && !suppressed ⟨true, true, none, none, 480⟩ m) :=
  ⟨⟨rfl,
    (global_events_replicated.1 ⟨true, true, none, none, 480⟩ initState
      (MetaKind.setTempo 300000) 25 rfl).1 7,
    (global_events_replicated.1 ⟨true, true, none, none, 480⟩ initState
      (MetaKind.setTempo 300000) 25 rfl).2⟩,
   global_events_replicated.2 ⟨true, true, none, none, 480⟩
     [MidiMsg.metaMsg MetaKind.text 5,
      MidiMsg.channelMsg 0 ChanKind.noteOn 3,
      MidiMsg.metaMsg MetaKind.endOfTrack 2] 5⟩

/-! ## C8: single-channel streams pass through unchanged -/

/-- Helper: folding the loop over messages that all live on channel `k`,
with trimming off and both windows disabled, appends exactly those
messages to channel `k`'s track and touches no other track, keeping
channel `k`'s carry at zero. -/
theorem foldl_single_channel (cfg : SplitConfig) (k : Fin 16)
    (hTrim : cfg.trim_silence = false) (hCut : optTruthy cfg.cutoff = false)
    (hOff : optTruthy cfg.offset = false) (events : List MidiMsg) :
    ∀ s : SplitState, events.all (isOnChannel k) = true → s.delta_ticks k = 0 →
      (events.foldl (stepSplit cfg) s).new_tracks k = s.new_tracks k ++ events
      ∧ (events.foldl (stepSplit cfg) s).delta_ticks k = 0
      ∧ ∀ j, j ≠ k → (events.foldl (stepSplit cfg) s).new_tracks j = s.new_tracks j := by
  induction events with
  | nil =>
    intro s _ hd
    exact ⟨by simp, hd, fun j _ => rfl⟩
  | cons m rest ih =>
    intro s hall hd
    rw [List.all_cons, Bool.and_eq_true] at hall
    obtain ⟨hm, hrest⟩ := hall
    cases m with
    | metaMsg kind time =>
      simp [isOnChannel] at hm
    | channelMsg c kind time =>
      have hck : c = k := by simpa [isOnChannel] using hm
      subst hck
      rw [List.foldl_cons]
      have htr := stepSplit_channel_tracks_kept cfg s c kind time hCut hOff
      have hemit : emittedTimeOf cfg s c time = time := by
        rw [emittedTimeOf_of_not_trim cfg s c time hTrim, hd, Nat.zero_add]
      have hδ : (stepSplit cfg s (MidiMsg.channelMsg c kind time)).delta_ticks c = 0 :=
        stepSplit_delta_self cfg s c kind time
      obtain ⟨h1, h2, h3⟩ := ih (stepSplit cfg s (MidiMsg.channelMsg c kind time)) hrest hδ
      refine ⟨?_, h2, ?_⟩
      · rw [h1, htr]
        simp [hemit]
      · intro j hj
        rw [h3 j hj, htr]
        simp [hj]

/-- **C8 (amended).** With `trim_silence` off and both windows disabled,
demultiplexing a stream whose messages all lie on channel `k` (no global
messages, none on other channels) reproduces the input exactly: channel
`k`'s output is identical in content and timing to the input (hence
non-empty whenever the input is), and the other fifteen outputs are
empty.  (With `trim_silence = true` — the source's default — timing is
not preserved: see `runSplit_trim_breaks_single_channel_identity`.) -/
theorem runSplit_single_channel_identity (cfg : SplitConfig) (k : Fin 16)
    (events : List MidiMsg) (hTrim : cfg.trim_silence = false)
    (hCut : optTruthy cfg.cutoff = false) (hOff : optTruthy cfg.offset = false)
    (hall : events.all (isOnChannel k) = true) :
    (runSplit cfg events).new_tracks k = events
    ∧ (∀ j, j ≠ k → (runSplit cfg events).new_tracks j = [])
    ∧ (events ≠ [] → (runSplit cfg events).new_tracks k ≠ []) := by
  obtain ⟨h1, h2, h3⟩ := foldl_single_channel cfg k hTrim hCut hOff events initState hall rfl
  have hk : (runSplit cfg events).new_tracks k = events := by
    rw [runSplit, h1]
    rfl
  refine ⟨hk, fun j hj => ?_, fun hne => ?_⟩
  · rw [runSplit, h3 j hj]
    rfl
  · rw [hk]
    exact hne

/-- **C8 counterexample.** With the source's default `trim_silence =
True`, an already-single-channel stream is not reproduced identically:
channel 3's lone `note_on` at delta 5 is written with time 0 (leading
silence suppression), so the output differs from the input in timing. -/
theorem runSplit_trim_breaks_single_channel_identity :
    [MidiMsg.channelMsg 3 ChanKind.noteOn 5].all (isOnChannel 3) = true
    ∧ (runSplit ⟨true, true, none, none, 480⟩
        [MidiMsg.channelMsg 3 ChanKind.noteOn 5]).new_tracks 3
      = [MidiMsg.channelMsg 3 ChanKind.noteOn 0]
    ∧ (runSplit ⟨true, true, none, none, 480⟩
        [MidiMsg.channelMsg 3 ChanKind.noteOn 5]).new_tracks 3
      ≠ [MidiMsg.channelMsg 3 ChanKind.noteOn 5] := by
  refine ⟨?_, ?_, ?_⟩ <;> decide

/-- Witness instantiating `runSplit_single_channel_identity` on a
two-message channel-4 stream. -/
theorem runSplit_single_channel_identity_witness :
    [MidiMsg.channelMsg 4 ChanKind.noteOn 7,
      MidiMsg.channelMsg 4 ChanKind.noteOff 3].all (isOnChannel 4) = true
    ∧ (runSplit ⟨false, false, none, none, 480⟩
        [MidiMsg.channelMsg 4 ChanKind.noteOn 7,
         MidiMsg.channelMsg 4 ChanKind.noteOff 3]).new_tracks 4
      = [MidiMsg.channelMsg 4 ChanKind.noteOn 7,
         MidiMsg.channelMsg 4 ChanKind.noteOff 3]
    ∧ (runSplit ⟨false, false, none, none, 480⟩
        [MidiMsg.channelMsg 4 ChanKind.noteOn 7,
         MidiMsg.channelMsg 4 ChanKind.noteOff 3]).new_tracks 9 = []
    ∧ (runSplit ⟨false, false, none, none, 480⟩
        [MidiMsg.channelMsg 4 ChanKind.noteOn 7,
         MidiMsg.channelMsg 4 ChanKind.noteOff 3]).new_tracks 4 ≠ [] :=
  ⟨rfl,
   (runSplit_single_channel_identity ⟨false, false, none, none, 480⟩ 4
     [MidiMsg.channelMsg 4 ChanKind.noteOn 7,
      MidiMsg.channelMsg 4 ChanKind.noteOff 3] rfl rfl rfl rfl).1,
   (runSplit_single_channel_identity ⟨false, false, none, none, 480⟩ 4
     [MidiMsg.channelMsg 4 ChanKind.noteOn 7,
      MidiMsg.channelMsg 4 ChanKind.noteOff 3] rfl rfl rfl rfl).2.1 9 (by decide),
   (runSplit_single_channel_identity ⟨false, false, none, none, 480⟩ 4
     [MidiMsg.channelMsg 4 ChanKind.noteOn 7,
      MidiMsg.channelMsg 4 ChanKind.noteOff 3] rfl rfl rfl rfl).2.2 (by decide)⟩

/-! ## C9: activation is pre-filter and permanent -/

/-- Helper: no step ever clears an activity flag. -/
theorem stepSplit_active_mono (cfg : SplitConfig) (s : SplitState)
    (m : MidiMsg) (c : Fin 16) (h : s.active_channels c = true) :
    (stepSplit cfg s m).active_channels c = true := by
  cases m with
  | metaMsg kind time =>
    rw [stepSplit_meta_active]
    exact h
  | channelMsg c0 kind time =>
    rw [stepSplit_channel_active]
    cases kind <;> simp [h]

/-- Helper: activity flags are monotone along the fold. -/
theorem foldl_active_mono (cfg : SplitConfig) (l : List MidiMsg) :
    ∀ (s : SplitState) (c : Fin 16), s.active_channels c = true →
      (l.foldl (stepSplit cfg) s).active_channels c = true := by
  induction l with
  | nil => exact fun s c h => h
  | cons m rest ih =>
    exact fun s c h => ih _ c (stepSplit_active_mono cfg s m c h)

/-- **C9.** A `note_on` marks its channel active (lines 89–90) before
window filtering is evaluated (lines 101–109), unconditionally — the
activation theorem below has no hypothesis on the configuration, so it
holds even when the very event is dropped; once set, no step ever clears
the flag; hence a run over any stream containing a `note_on` for `c`
finishes with `c` active, and the output assembler (lines 117–121) then
produces an output file for `c` — whose track may contain no note events
at all if everything was dropped. -/
theorem active_flag_semantics :
    (∀ (cfg : SplitConfig) (s : SplitState) (m : MidiMsg) (c : Fin 16),
        s.active_channels c = true → (stepSplit cfg s m).active_channels c = true)
    ∧ (∀ (cfg : SplitConfig) (s : SplitState) (c : Fin 16) (t : Nat),
        (stepSplit cfg s (MidiMsg.channelMsg c ChanKind.noteOn t)).active_channels c
          = true)
    ∧ (∀ (cfg : SplitConfig) (p : List MidiMsg) (c : Fin 16) (t : Nat)
        (rest : List MidiMsg),
        (runSplit cfg (p ++ MidiMsg.channelMsg c ChanKind.noteOn t :: rest)).active_channels c
          = true)
    ∧ (∀ (cfg : SplitConfig) (events : List MidiMsg) (c : Fin 16),
        (runSplit cfg events).active_channels c = true →
        (c, (runSplit cfg events).new_tracks c) ∈ outputFiles (runSplit cfg events)) := by
  refine ⟨stepSplit_active_mono, ?_, ?_, ?_⟩
  · intro cfg s c t
    rw [stepSplit_channel_active]
    simp
  · intro cfg p c t rest
    rw [runSplit, List.foldl_append, List.foldl_cons]
    apply foldl_active_mono
    rw [stepSplit_channel_active]
    simp
  · intro cfg events c hact
    rw [outputFiles, outputChannels]
    exact List.mem_map.mpr
      ⟨c, List.mem_filter.mpr ⟨List.mem_finRange c, hact⟩, rfl⟩

/-- Witness instantiating `active_flag_semantics`: with `cutoff = 1` s, a
channel-6 `note_on` at delta 2000 is dropped by the cutoff window (960
ticks), yet channel 6 ends active, keeps its flag across a later global
message, and the assembler still lists an output file for it — with an
empty track. -/
theorem active_flag_semantics_witness :
    (stepSplit ⟨false, false, some 1, none, 480⟩
        (runSplit ⟨false, false, some 1, none, 480⟩
          [MidiMsg.channelMsg 6 ChanKind.noteOn 2000])
        (MidiMsg.metaMsg MetaKind.endOfTrack 9)).active_channels 6 = true
    ∧ (stepSplit ⟨true, false, none, none, 480⟩ initState
        (MidiMsg.channelMsg 2 ChanKind.noteOn 5)).active_channels 2 = true
    ∧ (runSplit ⟨true, true, none, none, 480⟩
        ([MidiMsg.metaMsg MetaKind.text 1]
          ++ MidiMsg.channelMsg 6 ChanKind.noteOn 4
            :: [MidiMsg.channelMsg 0 ChanKind.noteOff 2])).active_channels 6 = true
    ∧ (runSplit ⟨false, false, some 1, none, 480⟩
        [MidiMsg.channelMsg 6 ChanKind.noteOn 2000]).new_tracks 6 = []
    ∧ (6, (runSplit ⟨false, false, some 1, none, 480⟩
          [MidiMsg.channelMsg 6 ChanKind.noteOn 2000]).new_tracks 6)
        ∈ outputFiles (runSplit ⟨false, false, some 1, none, 480⟩
            [MidiMsg.channelMsg 6 ChanKind.noteOn 2000]) :=
  ⟨active_flag_semantics.1 ⟨false, false, some 1, none, 480⟩
      (runSplit ⟨false, false, some 1, none, 480⟩
        [MidiMsg.channelMsg 6 ChanKind.noteOn 2000])
      (MidiMsg.metaMsg MetaKind.endOfTrack 9) 6 (by decide),
   active_flag_semantics.2.1 ⟨true, false, none, none, 480⟩ initState 2 5,
   active_flag_semantics.2.2.1 ⟨true, true, none, none, 480⟩
     [MidiMsg.metaMsg MetaKind.text 1] 6 4 [MidiMsg.channelMsg 0 ChanKind.noteOff 2],
   by decide,
   active_flag_semantics.2.2.2 ⟨false, false, some 1, none, 480⟩
     [MidiMsg.channelMsg 6 ChanKind.noteOn 2000] 6 (by decide)⟩

/-! ## C10: zero disables a window filter -/

/-- **C10.** Passing `0` for `cutoff` (or `offset`) disables that window
filter entirely: Python's `if cutoff:` / `if offset:` (lines 101, 106)
treats `0` as falsy, so the run is identical, state and all, to a run
with the parameter absent, and no event is dropped by that filter. -/
theorem runSplit_zero_window_is_disabled (trim ign : Bool) (w : Option Nat)
    (tpb : Nat) (events : List MidiMsg) :
    runSplit ⟨trim, ign, some 0, w, tpb⟩ events
        = runSplit ⟨trim, ign, none, w, tpb⟩ events
    ∧ runSplit ⟨trim, ign, w, some 0, tpb⟩ events
        = runSplit ⟨trim, ign, w, none, tpb⟩ events := by
  constructor
  · have hstep : stepSplit ⟨trim, ign, some 0, w, tpb⟩
        = stepSplit ⟨trim, ign, none, w, tpb⟩ := by
      funext s m
      cases m <;> rfl
    rw [runSplit, runSplit, hstep]
  · have hstep : stepSplit ⟨trim, ign, w, some 0, tpb⟩
        = stepSplit ⟨trim, ign, w, none, tpb⟩ := by
      funext s m
      cases m <;> rfl
    rw [runSplit, runSplit, hstep]
